import Mathlib

/-!
Verification of the crypto ETL pipeline (`src/etl/etl_daily.py`).

The development shallowly embeds the three pipeline stages:

* the Fetcher `fetch_coingecko_markets` (retry loop, re-raise on exhaustion),
* the Normalizer `markets_to_dataframe` plus `prepare_rows` (pandas
  column projection, `pd.to_numeric`/`pd.to_datetime` coercion, NaN → SQL null),
* the Sink `create_crypto_prices_table` (SQLAlchemy DDL bootstrap) and
  `load_to_postgres` (batched `INSERT ... ON CONFLICT (coin_id, load_timestamp)
  DO NOTHING` against PostgreSQL).

Library behaviour that the source relies on (pandas, SQLAlchemy, PostgreSQL)
is embedded at the granularity the source exercises, and each such point is
flagged in the doc comment of the definition that encodes it.
-/

/-- A cell value as it lives in a pandas dataframe column of dtype `object`
(or after coercion).  `na` stands for all of NaN / NaT / missing; `str`,
`num` and `time` stand for a Python string, a numeric value and a (UTC)
timestamp.  Numeric values are embedded as integers: the claims under
study never depend on fractional parts. -/
inductive Val where
  | na : Val
  | str : String → Val
  | num : Int → Val
  | time : Int → Val
deriving DecidableEq

/-- A Python exception value, as far as the Fetcher can observe one:
`requestError` covers network failures and the `HTTPError` raised by
`resp.raise_for_status()` on a non-2xx status, `valueError` is the
`ValueError("unexpected response format")` raised on a non-list body.

`specFetchError` is NOT produced anywhere by the embedded source: it is
modelled from the spec, which postulates a dedicated `FetchError` type
wrapping the last underlying cause.  It exists so that the claim
"a `FetchError` wrapping the last cause is propagated" can be stated and
compared against what the code actually raises. -/
inductive PyErr where
  | requestError : String → PyErr
  | valueError : String → PyErr
  | specFetchError : PyErr → PyErr
deriving DecidableEq

/-- `true` exactly on the spec-modelled `FetchError` wrapper. -/
def isSpecFetchError : PyErr → Bool
  | PyErr.specFetchError _ => true
  | _ => false

/-- A raw market record from the JSON response: a total map from field
name to value, `Val.na` marking an absent field. -/
def Rec : Type := String → Val

/-- Outcome of one call of `fetch_coingecko_markets`: the function either
`return data`s, propagates an exception with `raise`, or falls off the end
of the `while` loop and implicitly returns Python `None`. -/
inductive FetchOutcome where
  | success : List Rec → FetchOutcome
  | raised : PyErr → FetchOutcome
  | returnedNone : FetchOutcome

/-- The retry loop of `fetch_coingecko_markets`, embedded over an oracle
that gives attempt `i` (0-indexed, the Python variable `attempt` at the top
of the iteration) its outcome: `.ok data` when the GET succeeds, the JSON
parses and is a list; `.error e` when the attempt raises `e`.

`remaining` is the number of loop iterations the guard `attempt <
max_retries` still allows.  On an exception the source does `attempt += 1`;
when `attempt < max_retries` still holds it sleeps `backoff * attempt` and
retries, otherwise it re-raises the caught exception with a bare `raise`.
The second component counts the attempts actually performed (one GET per
executed loop body). -/
def fetchAux (oracle : Nat → Except PyErr (List Rec)) :
    Nat → Nat → FetchOutcome × Nat
  | _, 0 => (FetchOutcome.returnedNone, 0)
  | attempt, r + 1 =>
    match oracle attempt with
    | Except.ok data => (FetchOutcome.success data, 1)
    | Except.error e =>
      if r = 0 then (FetchOutcome.raised e, 1)
      else
        let p := fetchAux oracle (attempt + 1) r
        (p.1, p.2 + 1)

/-- `fetch_coingecko_markets` with `max_retries` (a Python int, possibly
non-positive) and the per-attempt oracle.  The loop starts at `attempt = 0`
and runs while `attempt < max_retries`; for `max_retries ≤ 0` the body
never executes and the function returns `None`. -/
def fetch_coingecko_markets (oracle : Nat → Except PyErr (List Rec))
    (max_retries : Int) : FetchOutcome × Nat :=
  fetchAux oracle 0 max_retries.toNat

/-- One-step unfolding of the retry loop. -/
lemma fetchAux_succ (oracle : Nat → Except PyErr (List Rec))
    (attempt r : Nat) :
    fetchAux oracle attempt (r + 1)
      = match oracle attempt with
        | Except.ok data => (FetchOutcome.success data, 1)
        | Except.error e =>
          if r = 0 then (FetchOutcome.raised e, 1)
          else ((fetchAux oracle (attempt + 1) r).1,
                (fetchAux oracle (attempt + 1) r).2 + 1) := rfl

/-- If every attempt from `attempt` to `attempt + s` fails with the error
given by `errOf`, the loop with `s + 1` iterations left performs exactly
`s + 1` attempts and re-raises the error of the last one. -/
lemma fetchAux_all_fail (oracle : Nat → Except PyErr (List Rec))
    (errOf : Nat → PyErr) :
    ∀ (s attempt : Nat),
      (∀ i, i ≤ s → oracle (attempt + i) = Except.error (errOf (attempt + i))) →
      fetchAux oracle attempt (s + 1)
        = (FetchOutcome.raised (errOf (attempt + s)), s + 1) := by
  intro s
  induction s with
  | zero =>
    intro attempt h
    have h0 := h 0 (le_refl 0)
    simp only [Nat.add_zero] at h0
    rw [fetchAux_succ, h0]
    simp
  | succ t ih =>
    intro attempt h
    have h0 := h 0 (Nat.zero_le _)
    simp only [Nat.add_zero] at h0
    have hrec := ih (attempt + 1) (fun i hi => by
      have := h (i + 1) (Nat.succ_le_succ hi)
      simpa [Nat.add_assoc, Nat.add_comm 1 i] using this)
    have harith : attempt + 1 + t = attempt + (t + 1) := by omega
    rw [fetchAux_succ, h0]
    simp only [Nat.succ_ne_zero, if_false, hrec, harith]

/-- If the first `f` attempts starting at `attempt` fail and attempt
`attempt + f` succeeds with `data`, the loop (with more than `f` iterations
allowed) performs exactly `f + 1` attempts and returns `data`. -/
lemma fetchAux_success_at (oracle : Nat → Except PyErr (List Rec))
    (data : List Rec) :
    ∀ (f r attempt : Nat), f < r →
      (∀ i, i < f → ∃ e, oracle (attempt + i) = Except.error e) →
      oracle (attempt + f) = Except.ok data →
      fetchAux oracle attempt r = (FetchOutcome.success data, f + 1) := by
  intro f
  induction f with
  | zero =>
    intro r attempt hfr _ hok
    obtain ⟨s, rfl⟩ : ∃ s, r = s + 1 := ⟨r - 1, by omega⟩
    simp only [Nat.add_zero] at hok
    rw [fetchAux_succ, hok]
  | succ g ih =>
    intro r attempt hfr hfail hok
    obtain ⟨s, rfl⟩ : ∃ s, r = s + 1 := ⟨r - 1, by omega⟩
    obtain ⟨e, he⟩ := hfail 0 (Nat.succ_pos g)
    simp only [Nat.add_zero] at he
    have hs : ¬(s = 0) := by omega
    have hrec := ih s (attempt + 1) (by omega)
      (fun i hi => by
        obtain ⟨e2, he2⟩ := hfail (i + 1) (Nat.succ_lt_succ hi)
        exact ⟨e2, by simpa [Nat.add_assoc, Nat.add_comm 1 i] using he2⟩)
      (by simpa [Nat.add_assoc, Nat.add_comm 1 g] using hok)
    rw [fetchAux_succ, he]
    simp only [hs, if_false, hrec]

/-- Oracle under which every attempt fails with the ValueError the source
raises on a non-list JSON body. -/
def oracleAlwaysFails : Nat → Except PyErr (List Rec) :=
  fun _ => Except.error (PyErr.valueError "unexpected response format")

/-- Oracle under which attempt 0 fails with a network error and every later
attempt succeeds with an empty page. -/
def oracleSecondTry : Nat → Except PyErr (List Rec) :=
  fun i => if i = 0 then Except.error (PyErr.requestError "timeout")
           else Except.ok []

/-- C4 counterexample: with `max_retries = 1` and the single attempt failing
with the ValueError for a malformed body, the exception propagated by
`fetch_coingecko_markets` is that ValueError itself — it is not of the
spec-postulated `FetchError`-wrapper form. -/
theorem fetch_error_not_wrapped_counterexample :
    (fetch_coingecko_markets oracleAlwaysFails 1).1
        = FetchOutcome.raised (PyErr.valueError "unexpected response format")
      ∧ isSpecFetchError (PyErr.valueError "unexpected response format")
        = false :=
  ⟨rfl, rfl⟩

/-- C4 (amended): when all `N ≥ 1` attempts fail, the failure propagated to
the caller is the last underlying cause itself, re-raised unchanged by the
bare `raise` statement; the code defines no `FetchError` wrapper type. -/
theorem fetch_propagates_raw_last_cause
    (oracle : Nat → Except PyErr (List Rec)) (errOf : Nat → PyErr) (N : Nat)
    (hN : 1 ≤ N)
    (hfail : ∀ i, i < N → oracle i = Except.error (errOf i)) :
    (fetch_coingecko_markets oracle (N : Int)).1
      = FetchOutcome.raised (errOf (N - 1)) := by
  obtain ⟨s, rfl⟩ : ∃ s, N = s + 1 := ⟨N - 1, by omega⟩
  have hall := fetchAux_all_fail oracle errOf s 0
    (fun i hi => by simpa using hfail i (by omega))
  unfold fetch_coingecko_markets
  rw [Int.toNat_ofNat, hall]
  simp

/-- C4 witness at `N = 2` with every attempt failing. -/
theorem fetch_propagates_raw_last_cause_witness :
    (fetch_coingecko_markets oracleAlwaysFails ((2 : Nat) : Int)).1
      = FetchOutcome.raised (PyErr.valueError "unexpected response format") :=
  fetch_propagates_raw_last_cause oracleAlwaysFails
    (fun _ => PyErr.valueError "unexpected response format") 2
    (by decide) (fun _ _ => rfl)

/-- C5: attempt counts are exact.  Persistent failure over `maxAttempts = N ≥ 1`
performs exactly `N` attempts (the first try counts) and then fails; a first
success on attempt `k ≤ N` performs exactly `k` attempts and returns that
attempt's record list. -/
theorem fetch_attempt_counts :
    (∀ (oracle : Nat → Except PyErr (List Rec)) (errOf : Nat → PyErr)
        (N : Nat), 1 ≤ N →
        (∀ i, i < N → oracle i = Except.error (errOf i)) →
        fetch_coingecko_markets oracle (N : Int)
          = (FetchOutcome.raised (errOf (N - 1)), N)) ∧
    (∀ (oracle : Nat → Except PyErr (List Rec)) (data : List Rec)
        (N k : Nat), 1 ≤ k → k ≤ N →
        (∀ i, i < k - 1 → ∃ e, oracle i = Except.error e) →
        oracle (k - 1) = Except.ok data →
        fetch_coingecko_markets oracle (N : Int)
          = (FetchOutcome.success data, k)) := by
  constructor
  · intro oracle errOf N hN hfail
    obtain ⟨s, rfl⟩ : ∃ s, N = s + 1 := ⟨N - 1, by omega⟩
    have hall := fetchAux_all_fail oracle errOf s 0
      (fun i hi => by simpa using hfail i (by omega))
    unfold fetch_coingecko_markets
    rw [Int.toNat_ofNat, hall]
    simp
  · intro oracle data N k hk hkN hfail hok
    obtain ⟨f, rfl⟩ : ∃ f, k = f + 1 := ⟨k - 1, by omega⟩
    have hsucc := fetchAux_success_at oracle data f N 0 (by omega)
      (fun i hi => by simpa using hfail i (by simpa using hi))
      (by simpa using hok)
    unfold fetch_coingecko_markets
    rw [Int.toNat_ofNat, hsucc]

/-- C5 witness: persistent failure with `N = 3` takes 3 attempts; first
success on attempt 2 of 3 takes 2 attempts and returns the page. -/
theorem fetch_attempt_counts_witness :
    fetch_coingecko_markets oracleAlwaysFails ((3 : Nat) : Int)
        = (FetchOutcome.raised
            (PyErr.valueError "unexpected response format"), 3)
      ∧ fetch_coingecko_markets oracleSecondTry ((3 : Nat) : Int)
        = (FetchOutcome.success [], 2) :=
  ⟨fetch_attempt_counts.1 oracleAlwaysFails
      (fun _ => PyErr.valueError "unexpected response format") 3
      (by decide) (fun _ _ => rfl),
   fetch_attempt_counts.2 oracleSecondTry [] 3 2 (by decide) (by decide)
      (fun i hi => ⟨PyErr.requestError "timeout", by
        have hi0 : i = 0 := by omega
        subst hi0
        rfl⟩)
      rfl⟩

/-- C9: calling the fetch with `max_retries ≤ 0` never enters the loop body:
zero HTTP attempts are made and the function falls off the end of the loop,
returning Python `None` without raising. -/
theorem fetch_nonpositive_retries_returns_none
    (oracle : Nat → Except PyErr (List Rec)) (m : Int) (hm : m ≤ 0) :
    fetch_coingecko_markets oracle m = (FetchOutcome.returnedNone, 0) := by
  unfold fetch_coingecko_markets
  rw [Int.toNat_of_nonpos hm]
  rfl

/-- C9 witness at `max_retries = 0`. -/
theorem fetch_nonpositive_retries_returns_none_witness :
    fetch_coingecko_markets oracleAlwaysFails 0
      = (FetchOutcome.returnedNone, 0) :=
  fetch_nonpositive_retries_returns_none oracleAlwaysFails 0 (by decide)

/-!
## Normalizer: `markets_to_dataframe` and `prepare_rows`

A pandas dataframe is embedded as its ordered column-name list together with
one total cell function per row (`Val.na` on columns the frame does not
have).  `pd.json_normalize(records)` yields one row per record, in order,
with a column for every field appearing in at least one record.
-/

/-- The `keep` dict of the source: source field name → output column name,
in the insertion order the source iterates (`keep.keys()`). -/
def keepPairs : List (String × String) :=
  [("id", "coin_id"), ("symbol", "symbol"), ("name", "name"),
   ("current_price", "current_price"), ("market_cap", "market_cap"),
   ("total_volume", "total_volume"), ("high_24h", "high_24h"),
   ("low_24h", "low_24h"),
   ("price_change_percentage_24h", "pct_change_24h"),
   ("last_updated", "last_updated")]

/-- A source field is a column of `pd.json_normalize(records)` iff some
record carries it (absent fields are modelled as `Val.na`). -/
def colPresent (records : List Rec) (src : String) : Bool :=
  records.any (fun r => r src != Val.na)

/-- `present = [c for c in keep.keys() if c in df.columns]`, paired with the
renamed output column. -/
def presentPairs (records : List Rec) : List (String × String) :=
  keepPairs.filter (fun p => colPresent records p.1)

/-- Column names of `df[present].rename(...)`. -/
def dfCols (records : List Rec) : List String :=
  (presentPairs records).map Prod.snd

/-- The source field behind an output column name (the `keep` dict is
injective in both components). -/
def srcOf (tgt : String) : String :=
  (((keepPairs.filter (fun p => p.2 == tgt)).map Prod.fst).headD tgt)

/-- `pd.to_numeric(·, errors="coerce")` on one cell: numbers pass through,
numeric strings parse, non-numeric strings and missing values coerce to
NaN.  The string parser of pandas is embedded as integer parsing — the
claims under study depend only on some strings parsing and others not. -/
def pdToNumeric : Val → Val
  | Val.num n => Val.num n
  | Val.str s =>
    match s.toInt? with
    | some n => Val.num n
    | none => Val.na
  | Val.time t => Val.num t
  | Val.na => Val.na

/-- `pd.to_datetime(·, utc=True, errors="coerce")` on one cell: parse
failures coerce to NaT.  The timestamp parser is likewise embedded as
integer parsing. -/
def pdToDatetime : Val → Val
  | Val.str s =>
    match s.toInt? with
    | some n => Val.time n
    | none => Val.na
  | Val.num n => Val.time n
  | Val.time t => Val.time t
  | Val.na => Val.na

/-- The four output columns the source passes through `pd.to_numeric`
unconditionally, in source order.  (`high_24h` and `low_24h` are *not*
among them, and `last_updated` is coerced only under an explicit
`if "last_updated" in df.columns` guard.) -/
def numericTargets : List String :=
  ["current_price", "market_cap", "total_volume", "pct_change_24h"]

/-- The source field names behind `numericTargets`, in the same order. -/
def numericSources : List String :=
  ["current_price", "market_cap", "total_volume",
   "price_change_percentage_24h"]

/-- The first of the four unconditional `df[c] = pd.to_numeric(df[c], ...)`
assignments whose column is absent from the frame; reading `df[c]` for such
a `c` raises `KeyError(c)`. -/
def firstMissingNumeric (cols : List String) : Option String :=
  numericTargets.find? (fun c => !(cols.contains c))

/-- `df[c] = f(df[c])`: rewrite one column of a row, leave the rest. -/
def coerceCol (c : String) (f : Val → Val) (row : String → Val) :
    String → Val :=
  fun t => if t = c then f (row t) else row t

/-- The embedded dataframe. -/
structure DF where
  cols : List String
  rows : List (String → Val)

/-- `markets_to_dataframe(records)` of the source, with the call
`pd.Timestamp.utcnow()` made explicit as the parameter `now`.

* empty input returns the empty frame `pd.DataFrame()` at once;
* otherwise the whitelisted columns present in some record are kept and
  renamed; each input record becomes one row, in order;
* the four unconditional numeric coercions follow; if one of those columns
  is absent from the frame, reading `df[c]` raises `KeyError(c)`
  (`Except.error c` — the first such column in source order; the
  assignments already performed are unobservable because the exception
  propagates out of the function);
* `last_updated` is datetime-coerced only if present;
* finally `df["load_timestamp"] = pd.Timestamp.utcnow()` appends a new
  column holding `now` in every row. -/
def markets_to_dataframe (records : List Rec) (now : Int) :
    Except String DF :=
  if records.isEmpty then Except.ok ⟨[], []⟩
  else
    let cols := dfCols records
    let rows0 := records.map (fun r => fun t =>
      if cols.contains t then r (srcOf t) else Val.na)
    match firstMissingNumeric cols with
    | some c => Except.error c
    | none =>
      let rows1 := rows0.map (coerceCol "current_price" pdToNumeric)
      let rows2 := rows1.map (coerceCol "market_cap" pdToNumeric)
      let rows3 := rows2.map (coerceCol "total_volume" pdToNumeric)
      let rows4 := rows3.map (coerceCol "pct_change_24h" pdToNumeric)
      let rows5 := if cols.contains "last_updated"
        then rows4.map (coerceCol "last_updated" pdToDatetime)
        else rows4
      let rows6 := rows5.map (fun row => fun t =>
        if t = "load_timestamp" then Val.time now else row t)
      Except.ok ⟨cols ++ ["load_timestamp"], rows6⟩

/-- `prepare_rows(df)`: iterate the rows (`itertuples(index=False)` walks
`df.cols` in order) and replace every cell with `None if pd.isna(v) else v`;
`pd.isna` holds exactly on NaN/NaT (`Val.na`), and `none` is the SQL null
the driver transmits. -/
def prepare_rows (df : DF) : List (List (Option Val)) :=
  df.rows.map (fun row => df.cols.map (fun c =>
    if row c = Val.na then none else some (row c)))

/-- The all-missing record (also the `getD` default below). -/
def naRec : Rec := fun _ => Val.na

/-- `getD` through `map` at an in-bounds index. -/
lemma getD_map_fn {α β : Type} (f : α → β) (l : List α) (i : Nat)
    (d : β) (d2 : α) (h : i < l.length) :
    (l.map f).getD i d = f (l.getD i d2) := by
  induction l generalizing i with
  | nil => exact absurd h (by simp)
  | cons a tl ih =>
    cases i with
    | zero => rfl
    | succ j =>
      simp only [List.map_cons, List.getD_cons_succ]
      exact ih j (by simpa using h)

/-- Cell-level reading of a successful `markets_to_dataframe` run: the value
row `i` of the output frame holds in column `t`.  Derived (proved below)
from the column-pass structure of the source: the load timestamp overrides
everything, `last_updated` is datetime-coerced only when its column exists,
the four unconditional numeric columns are numeric-coerced, and every other
column — including `high_24h` and `low_24h` — carries the raw projected
value unchanged. -/
def cellSpec (records : List Rec) (now : Int) (i : Nat) (t : String) : Val :=
  let cols := dfCols records
  let raw : Val :=
    if cols.contains t then (records.getD i naRec) (srcOf t) else Val.na
  if t = "load_timestamp" then Val.time now
  else if cols.contains "last_updated" ∧ t = "last_updated" then
    pdToDatetime raw
  else if t = "pct_change_24h" ∨ t = "total_volume" ∨ t = "market_cap"
      ∨ t = "current_price" then pdToNumeric raw
  else raw

/-- A successful `markets_to_dataframe` run has one output row per input
record, and each cell is as `cellSpec` states. -/
lemma markets_to_dataframe_ok (records : List Rec) (now : Int) (df : DF)
    (hok : markets_to_dataframe records now = Except.ok df) :
    df.rows.length = records.length ∧
    ∀ i : Nat, i < records.length → ∀ t : String,
      (df.rows.getD i naRec) t = cellSpec records now i t := by
  cases hre : records.isEmpty with
  | true =>
    have hnil : records = [] := by simpa using hre
    subst hnil
    have h2 : Except.ok (⟨[], []⟩ : DF) = Except.ok df := hok
    injection h2 with h3
    subst h3
    exact ⟨rfl, fun i hi _ => absurd hi (by simp)⟩
  | false =>
    simp only [markets_to_dataframe, hre, Bool.false_eq_true, if_false]
      at hok
    cases hfm : firstMissingNumeric (dfCols records) with
    | some c =>
      rw [hfm] at hok
      exact (Except.noConfusion hok)
    | none =>
      rw [hfm] at hok
      injection hok with hdf
      subst hdf
      constructor
      · cases hlu : (dfCols records).contains "last_updated" <;>
          simp [hlu]
      · intro i hi t
        cases hlu : (dfCols records).contains "last_updated" with
        | false =>
          simp only [hlu, Bool.false_eq_true, if_false, ite_false,
            List.map_map]
          rw [getD_map_fn _ _ _ _ naRec (by simpa using hi)]
          simp only [Function.comp, coerceCol, cellSpec, hlu,
            Bool.false_eq_true, false_and, if_false, ite_false]
          by_cases h0 : t = "load_timestamp"
          · subst h0; simp
          by_cases h1 : t = "pct_change_24h"
          · subst h1; simp
          by_cases h2 : t = "total_volume"
          · subst h2; simp
          by_cases h3 : t = "market_cap"
          · subst h3; simp
          by_cases h4 : t = "current_price"
          · subst h4; simp
          simp [h0, h1, h2, h3, h4]
        | true =>
          simp only [hlu, eq_self_iff_true, if_true, ite_true,
            List.map_map]
          rw [getD_map_fn _ _ _ _ naRec (by simpa using hi)]
          simp only [Function.comp, coerceCol, cellSpec, hlu,
            eq_self_iff_true, true_and, if_true, ite_true]
          by_cases h0 : t = "load_timestamp"
          · subst h0; simp
          by_cases h5 : t = "last_updated"
          · subst h5; simp
          by_cases h1 : t = "pct_change_24h"
          · subst h1; simp
          by_cases h2 : t = "total_volume"
          · subst h2; simp
          by_cases h3 : t = "market_cap"
          · subst h3; simp
          by_cases h4 : t = "current_price"
          · subst h4; simp
          simp [h0, h1, h2, h3, h4, h5]

/-- The `keep` dict has pairwise-distinct output names. -/
lemma keepPairs_snd_inj :
    ∀ p ∈ keepPairs, ∀ q ∈ keepPairs, p.2 = q.2 → p = q :=
  List.inj_on_of_nodup_map (by decide)

/-- An output column exists in the projected frame iff its source field
occurs in at least one record. -/
lemma contains_dfCols (records : List Rec) (src tgt : String)
    (hmem : (src, tgt) ∈ keepPairs) :
    (dfCols records).contains tgt = colPresent records src := by
  cases hcp : colPresent records src with
  | true =>
    have hmem2 : tgt ∈ dfCols records :=
      List.mem_map.mpr ⟨(src, tgt),
        List.mem_filter.mpr ⟨hmem, by simpa using hcp⟩, rfl⟩
    simpa [List.elem_eq_mem] using hmem2
  | false =>
    have hnot : tgt ∉ dfCols records := by
      intro hmem2
      obtain ⟨p, hp, hsnd⟩ := List.mem_map.mp hmem2
      obtain ⟨hpk, hpc⟩ := List.mem_filter.mp hp
      have hpeq : p = (src, tgt) :=
        keepPairs_snd_inj p hpk (src, tgt) hmem hsnd
      rw [hpeq] at hpc
      simp [hcp] at hpc
    simp [List.elem_eq_mem, hnot]

/-- When each of the four unconditionally coerced source fields occurs in
some record, none of the `pd.to_numeric` column reads raises. -/
lemma firstMissingNumeric_none (records : List Rec)
    (h : ∀ src ∈ numericSources, colPresent records src = true) :
    firstMissingNumeric (dfCols records) = none := by
  simp only [firstMissingNumeric, List.find?_eq_none]
  intro c hc
  simp only [numericTargets, List.mem_cons, List.not_mem_nil, or_false]
    at hc
  rcases hc with rfl | rfl | rfl | rfl
  · rw [contains_dfCols records "current_price" "current_price" (by decide),
      h "current_price" (by decide)]
    simp
  · rw [contains_dfCols records "market_cap" "market_cap" (by decide),
      h "market_cap" (by decide)]
    simp
  · rw [contains_dfCols records "total_volume" "total_volume" (by decide),
      h "total_volume" (by decide)]
    simp
  · rw [contains_dfCols records "price_change_percentage_24h"
        "pct_change_24h" (by decide),
      h "price_change_percentage_24h" (by decide)]
    simp

/-- Under the same condition (or on an empty batch) the Normalizer
succeeds. -/
lemma markets_to_dataframe_succeeds (records : List Rec) (now : Int)
    (h : records = []
      ∨ ∀ src ∈ numericSources, colPresent records src = true) :
    ∃ df : DF, markets_to_dataframe records now = Except.ok df := by
  rcases h with rfl | h4
  · exact ⟨⟨[], []⟩, rfl⟩
  · cases hre : records.isEmpty with
    | true =>
      exact ⟨⟨[], []⟩, by simp [markets_to_dataframe, hre]⟩
    | false =>
      cases hm : markets_to_dataframe records now with
      | ok df => exact ⟨df, rfl⟩
      | error c =>
        exfalso
        simp only [markets_to_dataframe, hre, Bool.false_eq_true, if_false,
          firstMissingNumeric_none records h4] at hm
        exact Except.noConfusion hm

/-- A record carrying only the `id` field (every other field absent). -/
def recIdOnly : Rec := fun s => if s = "id" then Val.str "bitcoin" else Val.na

/-- C2: the Normalizer is not total.  On the non-empty batch
`[{"id": "bitcoin"}]` no record carries `current_price`, so that column is
dropped by the projection, and the unguarded read in
`df["current_price"] = pd.to_numeric(df["current_price"], ...)` raises
`KeyError("current_price")` instead of emitting a row with nulls. -/
theorem markets_to_dataframe_keyerror_on_missing_numeric :
    markets_to_dataframe [recIdOnly] 0 = Except.error "current_price" := rfl

/-- C6: every row of one successful `markets_to_dataframe` call carries the
load timestamp `now` — the single value `pd.Timestamp.utcnow()` had when
the column was assigned — and that value is non-null.  It is the same for
every row index and for every input batch, hence identical within a run and
not derived from any input field. -/
theorem load_timestamp_uniform (records : List Rec) (now : Int) (df : DF)
    (hok : markets_to_dataframe records now = Except.ok df)
    (i : Nat) (hi : i < records.length) :
    (df.rows.getD i naRec) "load_timestamp" = Val.time now
      ∧ (df.rows.getD i naRec) "load_timestamp" ≠ Val.na := by
  have hcell :=
    (markets_to_dataframe_ok records now df hok).2 i hi "load_timestamp"
  rw [hcell]
  constructor
  · simp [cellSpec]
  · simp [cellSpec]

/-- A complete record: `id` plus the four unconditionally coerced numeric
fields, so the Normalizer succeeds on batches containing it. -/
def recFull : Rec := fun s =>
  if s = "id" then Val.str "btc"
  else if s = "current_price" then Val.num 1
  else if s = "market_cap" then Val.num 2
  else if s = "total_volume" then Val.num 3
  else if s = "price_change_percentage_24h" then Val.num 4
  else Val.na

/-- The frame the Normalizer yields on `[recFull]` at load time 7. -/
def dfFull : DF :=
  (markets_to_dataframe [recFull] 7).toOption.getD ⟨[], []⟩

/-- C6 witness: on the concrete batch `[recFull]` with `now = 7`, row 0
holds load timestamp 7 and it is non-null. -/
theorem load_timestamp_uniform_witness :
    (dfFull.rows.getD 0 naRec) "load_timestamp" = Val.time 7
      ∧ (dfFull.rows.getD 0 naRec) "load_timestamp" ≠ Val.na :=
  load_timestamp_uniform [recFull] 7 dfFull rfl 0 (by decide)

/-- A record with an `id` but none of the numeric fields, used twice in the
C8 counterexample batch. -/
def recDup : Rec := fun s => if s = "id" then Val.str "aaa" else Val.na

/-- C8 counterexample: on the two-record batch `[recDup, recDup]` the
Normalizer does not emit one row per record — it raises
`KeyError("current_price")` and emits nothing at all. -/
theorem normalize_row_per_record_counterexample :
    ¬ ∃ df : DF, markets_to_dataframe [recDup, recDup] 0 = Except.ok df
        ∧ df.rows.length = 2 := by
  rintro ⟨df, hdf, -⟩
  have heval : markets_to_dataframe [recDup, recDup] 0
      = Except.error "current_price" := rfl
  rw [heval] at hdf
  exact Except.noConfusion hdf

/-- C8 (amended): provided the batch is empty or each of the four
unconditionally coerced source fields occurs in at least one record, the
Normalizer succeeds and emits exactly one output row per input record, in
input order: the `coin_id` cell of row `i` is exactly the `id` field of
record `i` (null when that record lacks it, or when no record at all
carries `id`).  In particular duplicate `coin_id` values pass through
unchanged — nothing is deduplicated — and empty input yields the empty
frame without error. -/
theorem normalize_one_row_per_record (records : List Rec) (now : Int)
    (h : records = []
      ∨ ∀ src ∈ numericSources, colPresent records src = true) :
    ∃ df : DF, markets_to_dataframe records now = Except.ok df
      ∧ df.rows.length = records.length
      ∧ ∀ i : Nat, i < records.length →
          (df.rows.getD i naRec) "coin_id"
            = (if colPresent records "id" then (records.getD i naRec) "id"
               else Val.na) := by
  obtain ⟨df, hok⟩ := markets_to_dataframe_succeeds records now h
  refine ⟨df, hok, (markets_to_dataframe_ok records now df hok).1, ?_⟩
  intro i hi
  rw [(markets_to_dataframe_ok records now df hok).2 i hi "coin_id"]
  have h1 : srcOf "coin_id" = "id" := rfl
  have h2 := contains_dfCols records "id" "coin_id" (by decide)
  have h3 : ("coin_id" ∈ dfCols records) ↔ colPresent records "id" = true := by
    rw [← h2]
    exact List.elem_iff.symm
  simp [cellSpec, h1, h3]

/-- C8 witness: the batch `[recFull, recFull]` (a duplicated `coin_id`)
yields exactly two rows, in order, both with `coin_id = "btc"`. -/
theorem normalize_one_row_per_record_witness :
    ∃ df : DF, markets_to_dataframe [recFull, recFull] 3 = Except.ok df
      ∧ df.rows.length = 2
      ∧ ∀ i : Nat, i < 2 →
          (df.rows.getD i naRec) "coin_id"
            = (if colPresent [recFull, recFull] "id"
               then ([recFull, recFull].getD i naRec) "id" else Val.na) :=
  normalize_one_row_per_record [recFull, recFull] 3 (Or.inr (by decide))

/-- C7: `prepare_rows` hands the Sink a true SQL null (`none`) for exactly
the NaN/NaT cells of the frame, and passes every other cell value through
unchanged — never a sentinel string and never a zero. -/
theorem prepare_rows_true_nulls (df : DF) (i j : Nat)
    (hi : i < df.rows.length) (hj : j < df.cols.length) :
    (((prepare_rows df).getD i []).getD j none = none
        ↔ (df.rows.getD i naRec) (df.cols.getD j "") = Val.na)
      ∧ ∀ v : Val, (df.rows.getD i naRec) (df.cols.getD j "") = v →
          v ≠ Val.na →
          ((prepare_rows df).getD i []).getD j none = some v := by
  have hrow : (prepare_rows df).getD i []
      = df.cols.map (fun c =>
          if (df.rows.getD i naRec) c = Val.na then none
          else some ((df.rows.getD i naRec) c)) := by
    unfold prepare_rows
    rw [getD_map_fn _ _ _ _ naRec hi]
  have hcell : ((prepare_rows df).getD i []).getD j none
      = (if (df.rows.getD i naRec) (df.cols.getD j "") = Val.na then none
         else some ((df.rows.getD i naRec) (df.cols.getD j ""))) := by
    rw [hrow, getD_map_fn _ _ _ _ "" hj]
  rw [hcell]
  constructor
  · by_cases hna : (df.rows.getD i naRec) (df.cols.getD j "") = Val.na
    · simp [hna]
    · simp [hna]
  · intro v hv hvna
    subst hv
    rw [if_neg hvna]

/-- A hand-built two-column frame whose single row has a value in
`coin_id` and NaN in `current_price`. -/
def dfPartial : DF :=
  ⟨["coin_id", "current_price"],
   [fun t => if t = "coin_id" then Val.str "x" else Val.na]⟩

/-- C7 witness on `dfPartial`: cell (0,1) is NaN and becomes a true null;
cell (0,0) is a value and passes through. -/
theorem prepare_rows_true_nulls_witness :
    ((((prepare_rows dfPartial).getD 0 []).getD 1 none = none
        ↔ (dfPartial.rows.getD 0 naRec) (dfPartial.cols.getD 1 "")
            = Val.na)
      ∧ ∀ v : Val,
          (dfPartial.rows.getD 0 naRec) (dfPartial.cols.getD 1 "") = v →
          v ≠ Val.na →
          (((prepare_rows dfPartial).getD 0 []).getD 1 none = some v)) :=
  prepare_rows_true_nulls dfPartial 0 1 (by decide) (by decide)

/-!
## Sink: `create_crypto_prices_table` and `load_to_postgres`

The SQLAlchemy schema objects are embedded at the granularity the source
uses them.  The one load-bearing library fact, encoded in `mkTable` /
`setPkFlag` below: a `Table`'s `PrimaryKeyConstraint` is assembled during
`Table(...)` construction — `Column._set_parent` registers a column in
`table.primary_key` only if its `primary_key` flag is `True` at append
time — and the DDL compiler emits the PRIMARY KEY clause from that
constraint object.  Assigning `column.primary_key = True` on an already
constructed table mutates only the plain attribute on the `Column`; no
hook re-reads it, so the emitted `CREATE TABLE` is unaffected.
-/

/-- One column of the SQLAlchemy `Table`: name, `nullable` flag and the
`primary_key` attribute of the `Column` object. -/
structure ColDef where
  name : String
  nullable : Bool
  pkFlag : Bool
deriving DecidableEq

/-- The schema-level table object: `pkConstraint` is the column list of
the `PrimaryKeyConstraint` the DDL compiler will emit. -/
structure TableDef where
  name : String
  columns : List ColDef
  pkConstraint : List String
deriving DecidableEq

/-- `Table(name, metadata, *columns)`: stores the columns and assembles
the primary-key constraint from the flags as they stand at construction
time. -/
def mkTable (name : String) (columns : List ColDef) : TableDef :=
  ⟨name, columns,
   (columns.filter (fun c => c.pkFlag)).map (fun c => c.name)⟩

/-- `table.c.<col>.primary_key = True` after construction: mutates the
flag on the column object only; the already-assembled `pkConstraint` is
not updated. -/
def setPkFlag (t : TableDef) (cname : String) : TableDef :=
  ⟨t.name,
   t.columns.map (fun c =>
     if c.name = cname then ⟨c.name, c.nullable, true⟩ else c),
   t.pkConstraint⟩

/-- The `crypto_prices` table exactly as `create_crypto_prices_table`
builds it: eleven columns, `coin_id` and `load_timestamp` NOT NULL, no
column flagged `primary_key` in the constructor call, and the two post-hoc
flag assignments applied afterwards. -/
def crypto_prices : TableDef :=
  setPkFlag
    (setPkFlag
      (mkTable "crypto_prices"
        [⟨"coin_id", false, false⟩, ⟨"symbol", true, false⟩,
         ⟨"name", true, false⟩, ⟨"current_price", true, false⟩,
         ⟨"market_cap", true, false⟩, ⟨"total_volume", true, false⟩,
         ⟨"high_24h", true, false⟩, ⟨"low_24h", true, false⟩,
         ⟨"pct_change_24h", true, false⟩, ⟨"last_updated", true, false⟩,
         ⟨"load_timestamp", false, false⟩])
      "coin_id")
    "load_timestamp"

/-- The database catalog: the tables that exist in the schema. -/
abbrev Catalog : Type := List TableDef

/-- `metadata.create_all(conn)` with its default `checkfirst=True`: emit
`CREATE TABLE` only when no table of that name exists; a repeat invocation
is a no-op that never errors and leaves the existing table untouched,
whatever its definition. -/
def create_all (cat : Catalog) (t : TableDef) : Catalog :=
  if cat.any (fun u => u.name == t.name) then cat else cat ++ [t]

/-- `create_crypto_prices_table(engine)`: `create_all` followed by the
sanity-check `SELECT tablename FROM pg_catalog.pg_tables ...`; the Boolean
records whether `crypto_prices` was found (on `false` the source only
prints a warning). -/
def create_crypto_prices_table (cat : Catalog) : Catalog × Bool :=
  let cat1 := create_all cat crypto_prices
  (cat1, cat1.any (fun u => u.name == "crypto_prices"))

/-- C3: bootstrapping an empty schema creates `crypto_prices` and a second
bootstrap call is an error-free no-op that leaves the table definition
unchanged — but the table is NOT keyed by `(coin_id, load_timestamp)`:
its emitted primary-key constraint is empty, because the `primary_key =
True` assignments happen only after `Table` construction (contradicting
the comment in the source that announces a composite primary key). -/
theorem create_table_idempotent_but_no_primary_key :
    crypto_prices.pkConstraint = []
      ∧ (create_crypto_prices_table []).1 = [crypto_prices]
      ∧ create_crypto_prices_table (create_crypto_prices_table []).1
          = ((create_crypto_prices_table []).1, true) :=
  ⟨rfl, rfl, rfl⟩

/-- The column list of the INSERT statement, identical to the DDL order;
the `%s` placeholders bind one row of values positionally in this order. -/
def insertColumns : List String :=
  ["coin_id", "symbol", "name", "current_price", "market_cap",
   "total_volume", "high_24h", "low_24h", "pct_change_24h",
   "last_updated", "load_timestamp"]

/-- The value a parameter row binds to a named column. -/
def valOf (vals : List (Option Val)) (cname : String) : Option Val :=
  match insertColumns.findIdx? (fun c => c == cname) with
  | some i => vals.getD i none
  | none => none

/-- SQL equality as a unique index applies it: two keys collide only when
both are non-null and equal (SQL `NULL = NULL` is not true). -/
def sqlEq (a b : Option Val) : Bool :=
  match a, b with
  | some x, some y => x == y
  | _, _ => false

/-- The conflict target named by the INSERT statement. -/
def conflictTarget : List String := ["coin_id", "load_timestamp"]

/-- Whether the table carries a unique index on exactly the conflict
target.  The only candidate index this schema ever defines is the
primary-key constraint; PostgreSQL infers the arbiter index by column-set
comparison. -/
def hasConflictIndex (t : TableDef) : Bool :=
  !t.pkConstraint.isEmpty
    && conflictTarget.all (fun c => t.pkConstraint.contains c)
    && t.pkConstraint.all (fun c => conflictTarget.contains c)

/-- The live database table: its definition and its stored rows (each in
`insertColumns` order, in insertion order). -/
structure PGTable where
  tdef : TableDef
  rows : List (List (Option Val))

/-- One execution of `INSERT INTO crypto_prices (...) VALUES (...)
ON CONFLICT (coin_id, load_timestamp) DO NOTHING`:

* the driver formats the parameters client-side first, so a length
  mismatch between placeholders and the row raises before the server is
  contacted;
* the server then plans the statement: when no unique or exclusion
  constraint matches the conflict target it raises error 42P10 before any
  row is touched;
* NOT NULL constraints are checked when the tuple is formed, before
  conflict resolution, and violations raise;
* a row whose (non-null) key equals the key of a stored row is silently
  skipped — DO NOTHING;
* otherwise the row is appended. -/
def pgInsertDoNothing (t : PGTable) (vals : List (Option Val)) :
    Except String PGTable :=
  if vals.length != insertColumns.length then
    Except.error "driver: parameter count mismatch"
  else if !hasConflictIndex t.tdef then
    Except.error "42P10: there is no unique or exclusion constraint matching the ON CONFLICT specification"
  else if t.tdef.columns.any
      (fun c => !c.nullable && !(valOf vals c.name).isSome) then
    Except.error "23502: null value violates not-null constraint"
  else if t.rows.any (fun old =>
      conflictTarget.all (fun c => sqlEq (valOf vals c) (valOf old c)))
  then Except.ok t
  else Except.ok ⟨t.tdef, t.rows ++ [vals]⟩

/-- `load_to_postgres(engine, df)`: `prepare_rows`, the empty-frame
short-circuit (`attempted = 0`, no database contact), then
`cur.executemany(INSERT_SQL, rows)` — the statement once per row,
sequentially, in one transaction: the first error aborts the batch (no
commit, hence rollback on close) and propagates; on success the commit
lands and the call reports `attempted = len(rows)`.  The wall-clock
`elapsed_s` field is not modelled. -/
def load_to_postgres (t : PGTable) (df : DF) :
    Except String (PGTable × Nat) :=
  let rows := prepare_rows df
  if rows.isEmpty then Except.ok (t, 0)
  else
    match rows.foldlM pgInsertDoNothing t with
    | Except.error e => Except.error e
    | Except.ok t2 => Except.ok (t2, rows.length)

/-- A full single-row frame whose columns are exactly the INSERT columns,
with non-null key fields. -/
def rowFunSample : String → Val := fun t =>
  if t = "coin_id" then Val.str "btc"
  else if t = "load_timestamp" then Val.time 7
  else if t = "current_price" then Val.num 1
  else Val.na

/-- An eleven-column frame holding `rowFunSample` as its only row. -/
def dfAll : DF := ⟨insertColumns, [rowFunSample]⟩

/-- The table as the source bootstrap actually creates it, with the sample
row imagined already persisted. -/
def tableBootstrapped : PGTable := ⟨crypto_prices, prepare_rows dfAll⟩

/-- C1 counterexample: re-loading a row whose `(coin_id, load_timestamp)`
key is already present is NOT an error-free no-op against the table the
bootstrap builds: because that table carries no unique constraint on the
conflict target, PostgreSQL rejects the INSERT with error 42P10 — the load
raises instead of silently discarding the duplicate. -/
theorem idempotent_insert_counterexample :
    load_to_postgres tableBootstrapped dfAll
      = Except.error "42P10: there is no unique or exclusion constraint matching the ON CONFLICT specification" :=
  rfl

/-- Modelled from the spec: the `crypto_prices` table the source intends —
the comment in `create_crypto_prices_table` announces a composite primary
key on `(coin_id, load_timestamp)` — with that key declared at `Table`
construction time, which is what the missing piece of DDL would produce. -/
def crypto_prices_intended : TableDef :=
  mkTable "crypto_prices"
    [⟨"coin_id", false, true⟩, ⟨"symbol", true, false⟩,
     ⟨"name", true, false⟩, ⟨"current_price", true, false⟩,
     ⟨"market_cap", true, false⟩, ⟨"total_volume", true, false⟩,
     ⟨"high_24h", true, false⟩, ⟨"low_24h", true, false⟩,
     ⟨"pct_change_24h", true, false⟩, ⟨"last_updated", true, false⟩,
     ⟨"load_timestamp", false, true⟩]

/-- Inserting rows that all satisfy the constraints and whose keys are all
already persisted leaves the table untouched and raises nothing. -/
lemma foldlM_insert_noop (t : PGTable)
    (hidx : hasConflictIndex t.tdef = true) :
    ∀ rows : List (List (Option Val)),
      (∀ v ∈ rows,
        v.length = insertColumns.length
          ∧ (∀ c ∈ t.tdef.columns, c.nullable = false →
              (valOf v c.name).isSome = true)
          ∧ ∃ old ∈ t.rows,
              conflictTarget.all
                (fun c => sqlEq (valOf v c) (valOf old c)) = true) →
      rows.foldlM pgInsertDoNothing t = Except.ok t := by
  intro rows
  induction rows with
  | nil => intro _; rfl
  | cons v vs ih =>
    intro h
    obtain ⟨hlen, hnn, old, hold, hmatch⟩ := h v (List.mem_cons_self v vs)
    have h1 : (v.length != insertColumns.length) = false := by simp [hlen]
    have h3 : t.tdef.columns.any
        (fun c => !c.nullable && !(valOf v c.name).isSome) = false := by
      rw [List.any_eq_false]
      intro c hc
      cases hnul : c.nullable with
      | true => simp [hnul]
      | false =>
        have hsome := hnn c hc hnul
        rw [Option.isSome_iff_ne_none] at hsome
        simp [hnul, hsome]
    have h4 : t.rows.any (fun old2 =>
        conflictTarget.all
          (fun c => sqlEq (valOf v c) (valOf old2 c))) = true :=
      List.any_eq_true.mpr ⟨old, hold, hmatch⟩
    have hstep : pgInsertDoNothing t v = Except.ok t := by
      unfold pgInsertDoNothing
      rw [h1, hidx, h3, h4]
      simp
    rw [List.foldlM_cons, hstep]
    exact ih (fun w hw => h w (List.mem_cons_of_mem v hw))

/-- C1 (amended): against a table that does carry the composite unique key
on `(coin_id, load_timestamp)` — which the bootstrap as written fails to
create — a `load` call whose rows are well-formed and whose keys are all
already persisted is a silent no-op: every incoming duplicate is
discarded (insert-if-absent, never update-in-place), the stored rows are
unchanged (so a key persisted exactly once stays persisted exactly once),
the call reports every row as attempted, and no error is raised. -/
theorem load_on_persisted_keys_is_noop (t : PGTable) (df : DF)
    (hidx : hasConflictIndex t.tdef = true)
    (hrows : ∀ v ∈ prepare_rows df,
      v.length = insertColumns.length
        ∧ (∀ c ∈ t.tdef.columns, c.nullable = false →
            (valOf v c.name).isSome = true)
        ∧ ∃ old ∈ t.rows,
            conflictTarget.all
              (fun c => sqlEq (valOf v c) (valOf old c)) = true) :
    load_to_postgres t df = Except.ok (t, (prepare_rows df).length) := by
  cases hre : (prepare_rows df).isEmpty with
  | true =>
    have hnil : prepare_rows df = [] := by simpa using hre
    simp [load_to_postgres, hnil]
  | false =>
    simp only [load_to_postgres, hre, Bool.false_eq_true, if_false,
      foldlM_insert_noop t hidx (prepare_rows df) hrows]

/-- The intended table with the sample row already persisted. -/
def tableIntended : PGTable := ⟨crypto_prices_intended, prepare_rows dfAll⟩

/-- C1 witness: re-loading the already persisted sample row against the
intended table succeeds, changes nothing, and reports 1 attempted row. -/
theorem load_on_persisted_keys_is_noop_witness :
    load_to_postgres tableIntended dfAll = Except.ok (tableIntended, 1) :=
  load_on_persisted_keys_is_noop tableIntended dfAll (by decide) (by decide)

/-- The `nullable` flag of a named column of a table definition. -/
def colNullable (t : TableDef) (cname : String) : Option Bool :=
  (t.columns.find? (fun c => c.name == cname)).map (fun c => c.nullable)

/-- A record that carries `id` (and nothing else). -/
def recWithId : Rec := fun s => if s = "id" then Val.str "xrp" else Val.na

/-- A record that carries nothing at all — in particular no `id`. -/
def recNoId : Rec := fun _ => Val.na

/-- C10 counterexample: on the batch `[recWithId, recNoId]` — one record
with `id`, one without — the Normalizer does not emit a null-`coin_id` row
for the lacking record: it raises `KeyError("current_price")` and emits no
rows at all. -/
theorem coin_id_null_handoff_counterexample :
    ¬ ∃ df : DF,
        markets_to_dataframe [recWithId, recNoId] 0 = Except.ok df
          ∧ (df.rows.getD 1 naRec) "coin_id" = Val.na := by
  rintro ⟨df, hdf, -⟩
  have heval : markets_to_dataframe [recWithId, recNoId] 0
      = Except.error "current_price" := rfl
  rw [heval] at hdf
  exact Except.noConfusion hdf

/-- C10 (amended): the Normalizer does not enforce the `coin_id` NOT NULL
constraint.  Whenever a `markets_to_dataframe` call succeeds (the numeric
columns being present) and record `i` lacks the `id` field, the emitted
row `i` carries a null `coin_id` — which `prepare_rows` will hand to the
Sink as a true SQL null — while the bootstrapped `crypto_prices` table
declares the `coin_id` column NOT NULL. -/
theorem coin_id_not_null_not_enforced (records : List Rec) (now : Int)
    (df : DF) (i : Nat)
    (hok : markets_to_dataframe records now = Except.ok df)
    (hi : i < records.length)
    (hlack : (records.getD i naRec) "id" = Val.na) :
    (df.rows.getD i naRec) "coin_id" = Val.na
      ∧ colNullable crypto_prices "coin_id" = some false := by
  refine ⟨?_, rfl⟩
  rw [(markets_to_dataframe_ok records now df hok).2 i hi "coin_id"]
  have h1 : srcOf "coin_id" = "id" := rfl
  simp [cellSpec, h1, hlack]

/-- The frame of a successful run on `[recFull, recNoId]`. -/
def dfC10 : DF :=
  (markets_to_dataframe [recFull, recNoId] 9).toOption.getD ⟨[], []⟩

/-- C10 witness: in the successful run on `[recFull, recNoId]`, row 1 (the
record without `id`) has a null `coin_id`, and the table column is
NOT NULL. -/
theorem coin_id_not_null_not_enforced_witness :
    (dfC10.rows.getD 1 naRec) "coin_id" = Val.na
      ∧ colNullable crypto_prices "coin_id" = some false :=
  coin_id_not_null_not_enforced [recFull, recNoId] 9 dfC10 1 rfl
    (by decide) (by decide)
